import Mathlib

/-!
A shallow embedding of `scripts/route_finder.py` (Dynamic_routing).

The script's functions are translated as follows:
* `find_nearest_edge` (radius-doubling nearest-edge search),
* the background-traffic sampling loop and vehicle-list sorting inside
  `save_route_to_file`,
* the selection entries produced by `save_visualization_settings`,
* the session open/close discipline and `SUMO_HOME` check of `find_route`,
* the location-resolution and abort logic of `main`.

External services (sumolib network queries, the TraCI routing service,
Python's random module, console input) are modelled as explicit parameters
(edge/distance lists, oracles), so each theorem quantifies over every
possible behaviour of the external world.
-/

namespace RouteFinder

/-! ### Nearest-edge resolver: `find_nearest_edge` (route_finder.py lines 169-180) -/

/-- A network edge paired with its distance from the (fixed) query point
`(x, y)`.  `net.getNeighboringEdges x y r` returns such pairs, so for a fixed
query point the geometry of the network is fully described by this list. -/
abbrev EdgeDist := String × ℚ

/-- Model of `net.getNeighboringEdges(x, y, r)`: the edges whose distance
from the query point is at most `r`. -/
def getNeighboringEdges (net : List EdgeDist) (r : ℚ) : List EdgeDist :=
  net.filter (fun p => decide (p.2 ≤ r))

/-- The search radius after `k` doublings: `0.1 * 2 ^ k` (the source starts
at `radius = 0.1` and executes `radius *= 2` after each unsuccessful query). -/
def searchRadius (k : ℕ) : ℚ := (1 / 10) * 2 ^ k

theorem searchRadius_lt_iff (k : ℕ) : searchRadius k < 1000 ↔ k < 14 := by
  unfold searchRadius
  constructor
  · intro h
    by_contra h14
    push_neg at h14
    have h2 : (2 : ℚ) ^ 14 ≤ 2 ^ k := by
      exact pow_le_pow_right₀ one_le_two h14
    have : ((2 : ℚ) ^ 14) = 16384 := by norm_num
    nlinarith
  · intro h
    have hk : k ≤ 13 := by omega
    have h2 : (2 : ℚ) ^ k ≤ 2 ^ 13 := by
      exact pow_le_pow_right₀ one_le_two hk
    have : ((2 : ℚ) ^ 13) = 8192 := by norm_num
    nlinarith

theorem searchRadius_mono {j k : ℕ} (h : j ≤ k) :
    searchRadius j ≤ searchRadius k := by
  unfold searchRadius
  have h2 : (2 : ℚ) ^ j ≤ 2 ^ k := pow_le_pow_right₀ one_le_two h
  nlinarith

/-- The while-loop of `find_nearest_edge`, starting at doubling index `k`
(so `radius = searchRadius k`).  On a non-empty candidate list the source
sorts by distance (`edges.sort(key=lambda x: x[1])`, a stable sort) and
returns the id of the first entry.  Since the guard `radius < 1000` fails
as soon as `k = 14`, the loop executes at most `14 - k` iterations; the
extra fuel argument makes the recursion structural, and
`find_nearest_edge_from_fuel_irrel` proves the result does not depend on
the fuel as long as it covers those iterations. -/
def find_nearest_edge_from (net : List EdgeDist) : ℕ → ℕ → Option String
  | 0, _ => none
  | fuel + 1, k =>
    if searchRadius k < 1000 then
      match getNeighboringEdges net (searchRadius k) with
      | [] => find_nearest_edge_from net fuel (k + 1)
      | e :: es =>
        some ((List.mergeSort (e :: es) (fun a b => decide (a.2 ≤ b.2))).headI.1)
    else none

/-- `find_nearest_edge(net, x, y)`: run the loop from `radius = 0.1`. -/
def find_nearest_edge (net : List EdgeDist) : Option String :=
  find_nearest_edge_from net 14 0

theorem find_nearest_edge_from_succ (net : List EdgeDist) :
    ∀ fuel k, 14 ≤ fuel + k →
      find_nearest_edge_from net fuel k = find_nearest_edge_from net (fuel + 1) k := by
  intro fuel
  induction fuel with
  | zero =>
    intro k hk
    have : ¬ searchRadius k < 1000 := by
      rw [searchRadius_lt_iff]; omega
    simp [find_nearest_edge_from, this]
  | succ f ih =>
    intro k hk
    show find_nearest_edge_from net (f + 1) k = find_nearest_edge_from net (f + 1 + 1) k
    rw [find_nearest_edge_from, find_nearest_edge_from]
    by_cases hr : searchRadius k < 1000
    · simp only [if_pos hr]
      cases h : getNeighboringEdges net (searchRadius k) with
      | nil => exact ih (k + 1) (by omega)
      | cons e es => rfl
    · simp [hr]

/-- Any fuel that covers the at most `14 - k` remaining loop iterations
yields the same result, so `find_nearest_edge` faithfully models the
unbounded `while radius < max_radius` loop of the source. -/
theorem find_nearest_edge_from_fuel_irrel (net : List EdgeDist) :
    ∀ m fuel k, 14 ≤ fuel + k →
      find_nearest_edge_from net fuel k = find_nearest_edge_from net (fuel + m) k := by
  intro m
  induction m with
  | zero => intro fuel k _; rfl
  | succ n ih =>
    intro fuel k hk
    have h1 := ih fuel k hk
    have h2 := find_nearest_edge_from_succ net (fuel + n) k (by omega)
    rw [h1, h2]
    rfl

theorem find_nearest_edge_from_isSome (net : List EdgeDist) :
    ∀ fuel k, fuel + k = 14 → 1 ≤ fuel →
      ((find_nearest_edge_from net fuel k).isSome ↔
        ∃ p ∈ net, p.2 ≤ searchRadius 13) := by
  intro fuel
  induction fuel with
  | zero => intro k _ h1; omega
  | succ f ih =>
    intro k hk _
    have hk13 : k ≤ 13 := by omega
    have hr : searchRadius k < 1000 := by rw [searchRadius_lt_iff]; omega
    rw [find_nearest_edge_from]
    simp only [if_pos hr]
    cases hfil : getNeighboringEdges net (searchRadius k) with
    | nil =>
      have hempty : ∀ p ∈ net, ¬ p.2 ≤ searchRadius k := by
        intro p hp hle
        have : p ∈ getNeighboringEdges net (searchRadius k) := by
          unfold getNeighboringEdges
          rw [List.mem_filter]
          exact ⟨hp, by simpa using hle⟩
        rw [hfil] at this
        exact absurd this (List.not_mem_nil p)
      by_cases hf : f = 0
      · subst hf
        have hk' : k = 13 := by omega
        subst hk'
        simp only [find_nearest_edge_from, Option.isSome_none]
        constructor
        · intro h; exact absurd h (by simp)
        · rintro ⟨p, hp, hle⟩
          exact absurd hle (hempty p hp)
      · exact ih (k + 1) (by omega) (by omega)
    | cons e es =>
      simp only [Option.isSome_some, true_iff]
      have he : e ∈ getNeighboringEdges net (searchRadius k) := by
        rw [hfil]; exact List.mem_cons_self e es
      unfold getNeighboringEdges at he
      rw [List.mem_filter] at he
      refine ⟨e, he.1, ?_⟩
      have : e.2 ≤ searchRadius k := by simpa using he.2
      exact this.trans (searchRadius_mono hk13)

/-- Concrete network with a single edge at distance 900 from the query
point: within the claimed ceiling of 1000, but outside every radius the
loop actually queries (the largest is `0.1 * 2 ^ 13 = 819.2`). -/
def netFar : List EdgeDist := [("A", 900)]

/-! ### Route requester: `find_route` (route_finder.py lines 9-30) -/

/-- Events on the TraCI connection (`traci.start` / `traci.close`). -/
inductive SessEvent
  | started
  | closed
deriving DecidableEq, Repr

/-- State of the TraCI connection: the trace of session events so far. -/
structure TraciState where
  events : List SessEvent
deriving DecidableEq, Repr

/-- `traci.start(sumo_cmd)`: open the control session. -/
def traci_start (s : TraciState) : TraciState :=
  ⟨s.events ++ [SessEvent.started]⟩

/-- `traci.close()`: close the control session. -/
def traci_close (s : TraciState) : TraciState :=
  ⟨s.events ++ [SessEvent.closed]⟩

/-- How a call of `find_route` ends: a normal return, `sys.exit`, or an
exception raised by the route query and re-raised after the `finally`. -/
inductive Outcome (α : Type)
  | ok (a : α)
  | exited (msg : String)
  | raised (e : String)
deriving DecidableEq, Repr

/-- Python `try ... finally` with a finalizer that cannot itself fail:
run the body, then always run the finalizer, and propagate the body's
result or exception. -/
def tryFinally {α : Type} (body : TraciState → Except String α × TraciState)
    (fin : TraciState → TraciState) (s : TraciState) :
    Except String α × TraciState :=
  let r := body s
  (r.1, fin r.2)

/-- `find_route(net_file, start_edge, end_edge)`.  `sumoHome` models
`os.environ.get('SUMO_HOME')`; `query` models the outcome of
`traci.simulation.findRoute`: either a list of edges (possibly empty,
`route.edges`) or a raised exception.  The source returns the edge list if
it is truthy (non-empty) and `None` otherwise, and wraps the query in
`try ... finally traci.close()`. -/
def find_route (sumoHome : Option String)
    (query : Except String (List String)) (s : TraciState) :
    Outcome (Option (List String)) × TraciState :=
  match sumoHome with
  | none => (Outcome.exited "Please declare environment variable 'SUMO_HOME'", s)
  | some _ =>
    let s1 := traci_start s
    let r := tryFinally
      (fun st =>
        match query with
        | Except.ok route =>
            (Except.ok (if route.isEmpty then none else some route), st)
        | Except.error e => (Except.error e, st))
      traci_close s1
    match r.1 with
    | Except.ok v => (Outcome.ok v, r.2)
    | Except.error e => (Outcome.raised e, r.2)

/-! ### Scene generation: `save_route_to_file` (route_finder.py lines 32-110) -/

/-- A vehicle entry of the route document.  `depart` holds the numeric
value of the `depart` attribute, i.e. the sort key
`float(x["depart"])` used by the source (the highlighted vehicle stores
`"2"`, a background vehicle the one-decimal formatting of its
`random.uniform(0, 200)` draw). -/
structure Vehicle where
  id : String
  vtype : String
  depart : ℚ
  edges : List String
deriving DecidableEq, Repr

/-- The highlighted vehicle appended before the sampling loop
(lines 61-66): id `route_highlight`, type `highlighted_car`, depart 2. -/
def highlight_vehicle (edges : List String) : Vehicle :=
  ⟨"route_highlight", "highlighted_car", 2, edges⟩

/-- Id of the i-th successfully added background vehicle
(`f"random_vehicle_{added_vehicles}"`). -/
def random_vehicle_id (i : ℕ) : String :=
  "random_vehicle_" ++ toString i

/-- What one loop iteration observes from the outside world: the combined
outcome of the two `random.choice` calls and the `find_route` call, plus
(on success) the `random.uniform(0, 200)` departure draw.  `none` models a
failed route request at that attempt; `some (r, d)` a successful one with
route `r` and (formatted) departure value `d`. -/
abbrev SampleOracle := ℕ → Option (List String × ℚ)

/-- The sampling while-loop (lines 74-93), state
`(vehicles, added_vehicles, attempts)`.  On success the vehicle
`random_vehicle_{added}` is appended and `added` is incremented; `attempts`
is incremented every iteration.  The guard is
`added < 50 ∧ attempts < 1000`; since `attempts` grows by one per
iteration the loop runs at most `1000 - attempts` more times, which the
structural fuel covers (`sampleLoop_fuel_irrel`). -/
def sampleLoop (oracle : SampleOracle) :
    ℕ → List Vehicle → ℕ → ℕ → List Vehicle × ℕ × ℕ
  | 0, vehicles, added, attempts => (vehicles, added, attempts)
  | fuel + 1, vehicles, added, attempts =>
    if added < 50 ∧ attempts < 1000 then
      match oracle attempts with
      | some rd =>
          sampleLoop oracle fuel
            (vehicles ++ [⟨random_vehicle_id added, "car", rd.2, rd.1⟩])
            (added + 1) (attempts + 1)
      | none => sampleLoop oracle fuel vehicles added (attempts + 1)
    else (vehicles, added, attempts)

/-- The state of `save_route_to_file` after the sampling loop and before
the sort: the vehicle list (highlighted vehicle first), the number of
background vehicles added, and the number of attempts made. -/
def route_file_run (edges : List String) (oracle : SampleOracle) :
    List Vehicle × ℕ × ℕ :=
  sampleLoop oracle 1000 [highlight_vehicle edges] 0 0

/-- The comparison underlying `vehicles.sort(key=lambda x: float(x["depart"]))`.
Python's sort is stable, as is `List.mergeSort`. -/
def departLE (a b : Vehicle) : Bool := decide (a.depart ≤ b.depart)

/-- The vehicle list written to the route document, in document order. -/
def route_file_vehicles (edges : List String) (oracle : SampleOracle) :
    List Vehicle :=
  (route_file_run edges oracle).1.mergeSort departLE

theorem sampleLoop_fuel_succ (oracle : SampleOracle) :
    ∀ fuel vehicles added attempts, 1000 ≤ fuel + attempts →
      sampleLoop oracle fuel vehicles added attempts =
        sampleLoop oracle (fuel + 1) vehicles added attempts := by
  intro fuel
  induction fuel with
  | zero =>
    intro vehicles added attempts h
    have : ¬ (added < 50 ∧ attempts < 1000) := by omega
    simp [sampleLoop, this]
  | succ f ih =>
    intro vehicles added attempts h
    show sampleLoop oracle (f + 1) vehicles added attempts =
      sampleLoop oracle (f + 1 + 1) vehicles added attempts
    rw [sampleLoop, sampleLoop]
    by_cases hg : added < 50 ∧ attempts < 1000
    · simp only [if_pos hg]
      cases oracle attempts with
      | some rd => exact ih _ _ _ (by omega)
      | none => exact ih _ _ _ (by omega)
    · simp [hg]

/-- Fuel irrelevance: any fuel covering the at most `1000 - attempts`
remaining iterations yields the same result, so `route_file_run` (fuel
1000, attempts 0) faithfully models the unbounded source loop. -/
theorem sampleLoop_fuel_irrel (oracle : SampleOracle) :
    ∀ m fuel vehicles added attempts, 1000 ≤ fuel + attempts →
      sampleLoop oracle fuel vehicles added attempts =
        sampleLoop oracle (fuel + m) vehicles added attempts := by
  intro m
  induction m with
  | zero => intro fuel vehicles added attempts _; rfl
  | succ n ih =>
    intro fuel vehicles added attempts h
    rw [ih fuel vehicles added attempts h,
      sampleLoop_fuel_succ oracle (fuel + n) vehicles added attempts (by omega)]
    rfl

/-- The counters only grow. -/
theorem sampleLoop_counters_mono (oracle : SampleOracle) :
    ∀ fuel vehicles added attempts,
      added ≤ (sampleLoop oracle fuel vehicles added attempts).2.1 ∧
      attempts ≤ (sampleLoop oracle fuel vehicles added attempts).2.2 := by
  intro fuel
  induction fuel with
  | zero => intro vehicles added attempts; exact ⟨le_rfl, le_rfl⟩
  | succ f ih =>
    intro vehicles added attempts
    rw [sampleLoop]
    by_cases hg : added < 50 ∧ attempts < 1000
    · simp only [if_pos hg]
      cases oracle attempts with
      | some rd =>
        have h := ih (vehicles ++ [⟨random_vehicle_id added, "car", rd.2, rd.1⟩])
          (added + 1) (attempts + 1)
        exact ⟨le_trans (Nat.le_succ added) h.1, le_trans (Nat.le_succ attempts) h.2⟩
      | none =>
        have h := ih vehicles added (attempts + 1)
        exact ⟨h.1, le_trans (Nat.le_succ attempts) h.2⟩
    · simp only [if_neg hg]
      exact ⟨le_rfl, le_rfl⟩

/-- The guard bounds are invariants: starting within the bounds, the loop
never pushes `added` past 50 nor `attempts` past 1000. -/
theorem sampleLoop_bounds (oracle : SampleOracle) :
    ∀ fuel vehicles added attempts, added ≤ 50 → attempts ≤ 1000 →
      (sampleLoop oracle fuel vehicles added attempts).2.1 ≤ 50 ∧
      (sampleLoop oracle fuel vehicles added attempts).2.2 ≤ 1000 := by
  intro fuel
  induction fuel with
  | zero => intro vehicles added attempts h50 h1000; exact ⟨h50, h1000⟩
  | succ f ih =>
    intro vehicles added attempts h50 h1000
    rw [sampleLoop]
    by_cases hg : added < 50 ∧ attempts < 1000
    · simp only [if_pos hg]
      cases oracle attempts with
      | some rd => exact ih _ _ _ (by omega) (by omega)
      | none => exact ih _ _ _ (by omega) (by omega)
    · simp only [if_neg hg]
      exact ⟨h50, h1000⟩

/-- When the fuel covers the remaining attempt budget, the loop stops only
because its guard failed: at the final state the target is reached or the
budget is exhausted. -/
theorem sampleLoop_exit (oracle : SampleOracle) :
    ∀ fuel vehicles added attempts, 1000 ≤ fuel + attempts →
      ¬ ((sampleLoop oracle fuel vehicles added attempts).2.1 < 50 ∧
          (sampleLoop oracle fuel vehicles added attempts).2.2 < 1000) := by
  intro fuel
  induction fuel with
  | zero =>
    intro vehicles added attempts h
    simp only [sampleLoop]
    omega
  | succ f ih =>
    intro vehicles added attempts h
    rw [sampleLoop]
    by_cases hg : added < 50 ∧ attempts < 1000
    · simp only [if_pos hg]
      cases oracle attempts with
      | some rd => exact ih _ _ _ (by omega)
      | none => exact ih _ _ _ (by omega)
    · simp only [if_neg hg]
      omega

/-- The loop only appends: the final vehicle list extends the initial one
with background vehicles whose ids are `random_vehicle_added`,
`random_vehicle_(added+1)`, ... in order, one per successful attempt, all
of type `car`. -/
theorem sampleLoop_vehicles (oracle : SampleOracle) :
    ∀ fuel vehicles added attempts,
      ∃ newV : List Vehicle,
        (sampleLoop oracle fuel vehicles added attempts).1 = vehicles ++ newV ∧
        newV.map Vehicle.id =
          (List.range' added
            ((sampleLoop oracle fuel vehicles added attempts).2.1 - added)).map
            random_vehicle_id := by
  intro fuel
  induction fuel with
  | zero =>
    intro vehicles added attempts
    exact ⟨[], by simp [sampleLoop]⟩
  | succ f ih =>
    intro vehicles added attempts
    rw [sampleLoop]
    by_cases hg : added < 50 ∧ attempts < 1000
    · simp only [if_pos hg]
      cases ho : oracle attempts with
      | some rd =>
        obtain ⟨newV, h1, h2⟩ :=
          ih (vehicles ++ [⟨random_vehicle_id added, "car", rd.2, rd.1⟩])
            (added + 1) (attempts + 1)
        have hmono := (sampleLoop_counters_mono oracle f
          (vehicles ++ [⟨random_vehicle_id added, "car", rd.2, rd.1⟩])
          (added + 1) (attempts + 1)).1
        refine ⟨⟨random_vehicle_id added, "car", rd.2, rd.1⟩ :: newV, ?_, ?_⟩
        · rw [h1]; simp
        · have hn : (sampleLoop oracle f
              (vehicles ++ [⟨random_vehicle_id added, "car", rd.2, rd.1⟩])
              (added + 1) (attempts + 1)).2.1 - added =
              ((sampleLoop oracle f
                (vehicles ++ [⟨random_vehicle_id added, "car", rd.2, rd.1⟩])
                (added + 1) (attempts + 1)).2.1 - (added + 1)) + 1 := by omega
          rw [hn, List.range'_succ, List.map_cons, List.map_cons, h2]
      | none => exact ih vehicles added (attempts + 1)
    · simp only [if_neg hg]
      exact ⟨[], by simp⟩

/-! ### Visualization settings: `save_visualization_settings` (lines 126-167) -/

/-- One `selection` child of the `selections` element: edge id, color and
stroke width attributes. -/
structure Selection where
  id : String
  color : String
  width : String
deriving DecidableEq, Repr

/-- The `viewsettings` document assembled by
`save_visualization_settings`: the fixed viewport, scheme, edge-rendering
and default-color attributes, plus one selection entry per route edge. -/
structure ViewSettings where
  viewportX : String
  viewportY : String
  zoom : String
  schemeName : String
  laneWidth : String
  defaultColor : String
  selections : List Selection
deriving DecidableEq, Repr

/-- `save_visualization_settings(edges)`: the loop
`for edge in edges: selections.addChild("selection", ...)` adds one
bright-red, width-4 selection per route edge, in route order. -/
def save_visualization_settings (edges : List String) : ViewSettings :=
  { viewportX := "0"
    viewportY := "0"
    zoom := "100"
    schemeName := "real world"
    laneWidth := "2"
    defaultColor := "0.7,0.7,0.7"
    selections := edges.map (fun e => ⟨e, "255,0,0", "4"⟩) }

/-! ### Valid edges and the entry point: `is_valid_vehicle_edge`, `main`
(lines 112-124 and 182-259) -/

/-- A lane, exposing `lane.allows('passenger')`. -/
structure Lane where
  allowsPassenger : Bool
deriving DecidableEq, Repr

/-- A network edge as seen by `main`: its id and its lanes. -/
structure NetEdge where
  id : String
  lanes : List Lane
deriving DecidableEq, Repr

/-- `network.getEdge(edge_id)`. -/
def getEdge (net : List NetEdge) (eid : String) : Option NetEdge :=
  net.find? (fun e => e.id == eid)

/-- `is_valid_vehicle_edge(network, edge_id)` (lines 112-124): the edge
exists and some lane of it allows the passenger class. -/
def is_valid_vehicle_edge (net : List NetEdge) (eid : String) : Bool :=
  match getEdge net eid with
  | none => false
  | some e => e.lanes.any (fun l => l.allowsPassenger)

/-- The `valid_edges` list built in `main` (lines 187-197): the ids of the
network's edges that pass `is_valid_vehicle_edge`, in network order. -/
def valid_edges_of (net : List NetEdge) : List String :=
  (net.map NetEdge.id).filter (fun eid => is_valid_vehicle_edge net eid)

/-- Console input for one endpoint, after Python's
`float(...)`-`except ValueError` disambiguation: either both prompts
parsed as floats (coordinates) or the raw first prompt is kept as an edge
id string. -/
inductive UserInput
  | coords (x y : ℚ)
  | ident (s : String)
deriving DecidableEq, Repr

/-- The network geometry as consulted by `find_nearest_edge`: for each
query point, the edge/distance pairs of `getNeighboringEdges`. -/
abbrev Geometry := ℚ → ℚ → List EdgeDist

/-- Endpoint resolution in `main` (lines 203-211 for the start, 219-227
for the destination): coordinates go through `find_nearest_edge` with no
membership check against `valid_edges`; a non-numeric input is accepted
iff it occurs in `valid_edges`. -/
def resolve_location (net : List NetEdge) (geom : Geometry) :
    UserInput → Option String
  | UserInput.coords x y => find_nearest_edge (geom x y)
  | UserInput.ident s => if s ∈ valid_edges_of net then some s else none

/-- The observable outcome of one run of `main` (lines 182-259): the
error/status message printed (if any), whether the route service was
queried, which output files were written, and whether the viewer was
launched. -/
structure MainRun where
  printedMessage : Option String
  routeQueried : Bool
  filesWritten : List String
  launched : Bool
deriving DecidableEq, Repr

/-- Control flow of `main` after the interactive prompts: resolve the
start endpoint (abort on failure), resolve the destination (abort on
failure), query the route (`routeOf` models `find_route`), and only on a
non-empty route write the two output files and launch the viewer. -/
def main_run (net : List NetEdge) (geom : Geometry)
    (routeOf : String → String → Option (List String))
    (startInp endInp : UserInput) : MainRun :=
  match resolve_location net geom startInp with
  | none => ⟨some "Error: Invalid start location", false, [], false⟩
  | some s =>
    match resolve_location net geom endInp with
    | none => ⟨some "Error: Invalid destination location", false, [], false⟩
    | some e =>
      match routeOf s e with
      | some _ =>
          ⟨none, true, ["../data/route.rou.xml", "../data/settings.xml"], true⟩
      | none => ⟨some "No route found between selected locations", true, [], false⟩

/-- A two-edge demonstration network: `car_ok` has a passenger lane,
`rail_only` has none, so `valid_edges_of demo_net = ["car_ok"]`. -/
def demo_net : List NetEdge :=
  [⟨"car_ok", [⟨true⟩]⟩, ⟨"rail_only", [⟨false⟩]⟩]

/-- Geometry for `demo_net`: from every query point, `rail_only` is the
nearest edge (distance 0.05) and `car_ok` is 500 away. -/
def demo_geom : Geometry := fun _ _ => [("rail_only", 1 / 20), ("car_ok", 500)]

/-! ### Claim theorems -/

/-- Claim C1 is false as stated: in `netFar` the edge `A` lies within the
maximum radius 1000 of the query point (distance 900), yet
`find_nearest_edge` returns `none`.  The guard `radius < 1000` admits
radii `0.1 * 2 ^ k` only up to `819.2 = 0.1 * 2 ^ 13`, so a candidate at
distance 900 is never queried. -/
theorem c1_counterexample :
    (∃ p ∈ netFar, p.2 ≤ 1000) ∧ find_nearest_edge netFar = none := by
  refine ⟨⟨("A", 900), by simp [netFar], by norm_num⟩, ?_⟩
  norm_num [find_nearest_edge, find_nearest_edge_from, getNeighboringEdges,
    searchRadius, netFar, List.filter]

/-- Claim C1, amended: the effective ceiling of the radius-doubling search
is the largest queried radius `0.1 * 2 ^ 13 = 819.2 = 4096 / 5`, not 1000.
`find_nearest_edge` returns some edge iff some edge lies within `819.2` of
the query point; hence it returns no result only if no edge lies within
that (corrected) ceiling. -/
theorem c1_radius_search_amended (net : List EdgeDist) :
    (find_nearest_edge net).isSome ↔ ∃ p ∈ net, p.2 ≤ 4096 / 5 := by
  have h := find_nearest_edge_from_isSome net 14 0 rfl (by norm_num)
  have hs : searchRadius 13 = 4096 / 5 := by norm_num [searchRadius]
  rw [hs] at h
  exact h

/-- Claim C2: for every oracle (i.e. regardless of the random choices and
of which route requests succeed), the sampler makes at most 1000 attempts,
records at most 50 background vehicles (the vehicle list holds exactly the
highlighted vehicle plus `added` background ones), and the loop stops
exactly when the target count is reached or the attempt budget is
exhausted; the final `(added, attempts)` pair is what the console report
prints, a normal return rather than an error. -/
theorem c2_sampler_invariants (edges : List String) (oracle : SampleOracle) :
    (route_file_run edges oracle).2.2 ≤ 1000 ∧
    (route_file_run edges oracle).2.1 ≤ 50 ∧
    (route_file_run edges oracle).1.length =
      1 + (route_file_run edges oracle).2.1 ∧
    ((route_file_run edges oracle).2.1 = 50 ∨
      (route_file_run edges oracle).2.2 = 1000) := by
  simp only [route_file_run]
  obtain ⟨h50, h1000⟩ :=
    sampleLoop_bounds oracle 1000 [highlight_vehicle edges] 0 0 (by omega) (by omega)
  have hexit := sampleLoop_exit oracle 1000 [highlight_vehicle edges] 0 0 (by omega)
  obtain ⟨newV, h1, h2⟩ := sampleLoop_vehicles oracle 1000 [highlight_vehicle edges] 0 0
  have hlen : newV.length =
      (sampleLoop oracle 1000 [highlight_vehicle edges] 0 0).2.1 := by
    have hc := congrArg List.length h2
    simpa using hc
  refine ⟨h1000, h50, ?_, by omega⟩
  rw [h1]
  simp [List.length_append]
  omega

/-- The vehicle comparison is transitive. -/
theorem departLE_trans (a b c : Vehicle) (h1 : departLE a b) (h2 : departLE b c) :
    departLE a c := by
  simp only [departLE, decide_eq_true_eq] at h1 h2 ⊢
  exact le_trans h1 h2

/-- The vehicle comparison is total. -/
theorem departLE_total (a b : Vehicle) : departLE a b || departLE b a := by
  simp only [departLE, Bool.or_eq_true, decide_eq_true_eq]
  exact le_total a.depart b.depart

/-- Claim C5: in every generated scene document the vehicle entries are
sorted by non-decreasing numeric departure time, and the sort is stable:
for every departure value `d`, the entries with that departure appear in
the document in exactly their insertion order (the order they have in the
pre-sort list `route_file_run`). -/
theorem c5_vehicles_sorted_stably (edges : List String) (oracle : SampleOracle)
    (d : ℚ) :
    (route_file_vehicles edges oracle).Pairwise
      (fun a b => a.depart ≤ b.depart) ∧
    (route_file_vehicles edges oracle).filter (fun v => decide (v.depart = d)) =
      (route_file_run edges oracle).1.filter (fun v => decide (v.depart = d)) := by
  simp only [route_file_vehicles]
  constructor
  · have h := List.sorted_mergeSort departLE_trans departLE_total
      (route_file_run edges oracle).1
    exact h.imp (fun hab => by simpa [departLE] using hab)
  · have hmem : ∀ v ∈ (route_file_run edges oracle).1.filter
        (fun v => decide (v.depart = d)), (fun v => decide (v.depart = d)) v :=
      fun v hv => (List.mem_filter.mp hv).2
    have hpw : ((route_file_run edges oracle).1.filter
        (fun v => decide (v.depart = d))).Pairwise (fun a b => departLE a b) := by
      apply List.pairwise_of_forall_mem_list
      intro a ha b hb
      have ha2 := (List.mem_filter.mp ha).2
      have hb2 := (List.mem_filter.mp hb).2
      simp only [decide_eq_true_eq] at ha2 hb2
      simp [departLE, ha2, hb2]
    have hsub : List.Sublist ((route_file_run edges oracle).1.filter
        (fun v => decide (v.depart = d))) (route_file_run edges oracle).1 :=
      List.filter_sublist _
    have hms := List.sublist_mergeSort departLE_trans departLE_total hpw hsub
    have hperm : (((route_file_run edges oracle).1.mergeSort departLE).filter
        (fun v => decide (v.depart = d))).Perm
        ((route_file_run edges oracle).1.filter (fun v => decide (v.depart = d))) :=
      (List.mergeSort_perm (route_file_run edges oracle).1 departLE).filter _
    have hfil : ((route_file_run edges oracle).1.filter
        (fun v => decide (v.depart = d))).filter (fun v => decide (v.depart = d)) =
        (route_file_run edges oracle).1.filter (fun v => decide (v.depart = d)) :=
      List.filter_eq_self.mpr hmem
    have hsub2 := hms.filter (fun v => decide (v.depart = d))
    rw [hfil] at hsub2
    exact (hsub2.eq_of_length hperm.length_eq.symm).symm

/-- Claim C6: the highlighted vehicle (id `route_highlight`, type
`highlighted_car`, departure 2, carrying the requested route) is present
in the generated document for every oracle, in particular also when zero
background vehicles were sampled. -/
theorem c6_highlight_always_present (edges : List String) (oracle : SampleOracle) :
    (⟨"route_highlight", "highlighted_car", 2, edges⟩ : Vehicle) ∈
      route_file_vehicles edges oracle := by
  obtain ⟨newV, h1, -⟩ := sampleLoop_vehicles oracle 1000 [highlight_vehicle edges] 0 0
  have hm : highlight_vehicle edges ∈ (route_file_run edges oracle).1 := by
    simp only [route_file_run]
    rw [h1]
    simp
  simp only [route_file_vehicles, List.mem_mergeSort]
  exact hm

/-- Claim C10: in every generated scene document the vehicle identifiers
are pairwise distinct: before sorting they are exactly `route_highlight`
followed by `random_vehicle_0 ... random_vehicle_(k-1)` with consecutive
indices (`k` = number of successful samples, since the index counter is
incremented only on success), and the sorted document carries the same
identifiers, with no duplicates. -/
theorem c10_vehicle_ids_distinct (edges : List String) (oracle : SampleOracle) :
    ((route_file_run edges oracle).1.map Vehicle.id =
      "route_highlight" ::
        (List.range (route_file_run edges oracle).2.1).map random_vehicle_id) ∧
    ((route_file_vehicles edges oracle).map Vehicle.id).Perm
      ("route_highlight" ::
        (List.range (route_file_run edges oracle).2.1).map random_vehicle_id) ∧
    ((route_file_vehicles edges oracle).map Vehicle.id).Nodup := by
  obtain ⟨newV, h1, h2⟩ := sampleLoop_vehicles oracle 1000 [highlight_vehicle edges] 0 0
  have hb := sampleLoop_bounds oracle 1000 [highlight_vehicle edges] 0 0
    (by omega) (by omega)
  have hpre : (route_file_run edges oracle).1.map Vehicle.id =
      "route_highlight" ::
        (List.range (route_file_run edges oracle).2.1).map random_vehicle_id := by
    simp only [route_file_run]
    rw [h1, List.map_append, h2]
    simp [highlight_vehicle, List.range_eq_range']
  have hperm : ((route_file_vehicles edges oracle).map Vehicle.id).Perm
      ((route_file_run edges oracle).1.map Vehicle.id) :=
    (List.mergeSort_perm (route_file_run edges oracle).1 departLE).map Vehicle.id
  have hperm2 : ((route_file_vehicles edges oracle).map Vehicle.id).Perm
      ("route_highlight" ::
        (List.range (route_file_run edges oracle).2.1).map random_vehicle_id) := by
    rw [hpre] at hperm
    exact hperm
  have hnodup50 :
      ("route_highlight" :: (List.range 50).map random_vehicle_id).Nodup := by
    decide
  have hsubl : List.Sublist ("route_highlight" ::
      (List.range (route_file_run edges oracle).2.1).map random_vehicle_id)
      ("route_highlight" :: (List.range 50).map random_vehicle_id) :=
    List.Sublist.cons₂ _ ((List.range_sublist.mpr hb.1).map random_vehicle_id)
  have hnodup : ("route_highlight" ::
      (List.range (route_file_run edges oracle).2.1).map random_vehicle_id).Nodup :=
    List.Nodup.sublist hsubl hnodup50
  exact ⟨hpre, hperm2, hperm2.symm.nodup hnodup⟩

/-- Claim C3: for a route without repeated edges, the selection ids of the
visualization document are exactly the route's edge ids, in order: every
route edge appears, the id sets coincide, and each id occurs exactly once
among the selections. -/
theorem c3_selections_roundtrip (edges : List String) (h : edges.Nodup) :
    (save_visualization_settings edges).selections.map Selection.id = edges ∧
    ((save_visualization_settings edges).selections.map Selection.id).toFinset =
      edges.toFinset ∧
    ∀ e ∈ edges,
      ((save_visualization_settings edges).selections.map Selection.id).count e =
        1 := by
  have hids : (save_visualization_settings edges).selections.map Selection.id =
      edges := by
    show List.map Selection.id
      (edges.map fun e => (⟨e, "255,0,0", "4"⟩ : Selection)) = edges
    rw [List.map_map]
    clear h
    induction edges with
    | nil => rfl
    | cons a t ih => simpa using ih
  refine ⟨hids, by rw [hids], ?_⟩
  intro e he
  rw [hids]
  exact List.count_eq_one_of_mem h he

/-- Witness for C3 at the concrete route `A B C`. -/
theorem c3_selections_roundtrip_witness :
    (["A", "B", "C"] : List String).Nodup ∧
    ((save_visualization_settings ["A", "B", "C"]).selections.map Selection.id =
        ["A", "B", "C"] ∧
      ((save_visualization_settings ["A", "B", "C"]).selections.map
          Selection.id).toFinset = (["A", "B", "C"] : List String).toFinset ∧
      ∀ e ∈ (["A", "B", "C"] : List String),
        ((save_visualization_settings ["A", "B", "C"]).selections.map
            Selection.id).count e = 1) :=
  ⟨by decide, c3_selections_roundtrip ["A", "B", "C"] (by decide)⟩

/-- Claim C4: whenever `SUMO_HOME` is set, every call of `find_route`
opens the session and closes it again before returning, for every outcome
of the route query: successful non-empty route, empty route, and a raised
exception; in the latter case the exception is re-raised only after the
session was closed. -/
theorem c4_session_always_closed (home : String)
    (query : Except String (List String)) (e : String) :
    (find_route (some home) query ⟨[]⟩).2.events =
      [SessEvent.started, SessEvent.closed] ∧
    (find_route (some home) (Except.error e) ⟨[]⟩).1 = Outcome.raised e := by
  refine ⟨?_, rfl⟩
  cases query with
  | ok r => rfl
  | error e2 => rfl

/-- Claim C8: if the environment variable `SUMO_HOME` is absent,
`find_route` exits immediately with the explanatory message and the
session trace stays empty: no routing session is ever opened. -/
theorem c8_missing_sumo_home_exits (query : Except String (List String)) :
    find_route none query ⟨[]⟩ =
      (Outcome.exited "Please declare environment variable 'SUMO_HOME'", ⟨[]⟩) :=
  rfl

/-- Claim C7: if either endpoint fails to resolve, `main` prints a
user-facing error message, does not query the route service, writes no
output file and never launches the viewer (early return, no retry). -/
theorem c7_unresolved_endpoint_aborts (net : List NetEdge) (geom : Geometry)
    (routeOf : String → String → Option (List String))
    (startInp endInp : UserInput)
    (h : resolve_location net geom startInp = none ∨
      resolve_location net geom endInp = none) :
    (main_run net geom routeOf startInp endInp).filesWritten = [] ∧
    (main_run net geom routeOf startInp endInp).printedMessage.isSome ∧
    (main_run net geom routeOf startInp endInp).routeQueried = false ∧
    (main_run net geom routeOf startInp endInp).launched = false := by
  unfold main_run
  rcases h with h | h
  · rw [h]
    exact ⟨rfl, rfl, rfl, rfl⟩
  · cases hs : resolve_location net geom startInp with
    | none => exact ⟨rfl, rfl, rfl, rfl⟩
    | some s =>
      rw [h]
      exact ⟨rfl, rfl, rfl, rfl⟩

/-- Witness for C7: the input `bogus` is not a valid edge id, so the run
aborts with no file written. -/
theorem c7_unresolved_endpoint_aborts_witness :
    (resolve_location demo_net demo_geom (UserInput.ident "bogus") = none ∨
      resolve_location demo_net demo_geom (UserInput.ident "car_ok") = none) ∧
    ((main_run demo_net demo_geom (fun _ _ => none) (UserInput.ident "bogus")
        (UserInput.ident "car_ok")).filesWritten = [] ∧
      (main_run demo_net demo_geom (fun _ _ => none) (UserInput.ident "bogus")
        (UserInput.ident "car_ok")).printedMessage.isSome ∧
      (main_run demo_net demo_geom (fun _ _ => none) (UserInput.ident "bogus")
        (UserInput.ident "car_ok")).routeQueried = false ∧
      (main_run demo_net demo_geom (fun _ _ => none) (UserInput.ident "bogus")
        (UserInput.ident "car_ok")).launched = false) :=
  ⟨Or.inl (by decide),
    c7_unresolved_endpoint_aborts demo_net demo_geom (fun _ _ => none)
      (UserInput.ident "bogus") (UserInput.ident "car_ok") (Or.inl (by decide))⟩

/-- Claim C9: the edge-id fallback path accepts an input only if it lies
in the valid-edge set, while the coordinate path accepts whatever the
nearest-edge resolver returns without any membership check: in `demo_net`
the coordinates `(0, 0)` select the edge `rail_only`, which permits no
passenger lane and is not in the valid-edge set. -/
theorem c9_coordinate_path_skips_validity (net : List NetEdge) (geom : Geometry)
    (s e : String)
    (h : resolve_location net geom (UserInput.ident s) = some e) :
    e ∈ valid_edges_of net ∧
    (resolve_location demo_net demo_geom (UserInput.coords 0 0) =
        some "rail_only" ∧
      "rail_only" ∉ valid_edges_of demo_net) := by
  refine ⟨?_, ?_, by decide⟩
  · by_cases hs : s ∈ valid_edges_of net
    · simp only [resolve_location, if_pos hs] at h
      cases Option.some.inj h
      exact hs
    · simp only [resolve_location, if_neg hs] at h
      exact absurd h (by simp)
  · show find_nearest_edge (demo_geom 0 0) = some "rail_only"
    norm_num [demo_geom, find_nearest_edge, find_nearest_edge_from,
      getNeighboringEdges, searchRadius, List.filter, List.mergeSort]

/-- Witness for C9: the valid edge id `car_ok` is accepted by the
fallback path, and coordinates can select the non-valid edge. -/
theorem c9_coordinate_path_skips_validity_witness :
    "car_ok" ∈ valid_edges_of demo_net ∧
    (resolve_location demo_net demo_geom (UserInput.coords 0 0) =
        some "rail_only" ∧
      "rail_only" ∉ valid_edges_of demo_net) :=
  c9_coordinate_path_skips_validity demo_net demo_geom "car_ok" "car_ok"
    (by decide)

end RouteFinder
